import Mathlib

/-!
Verification of the statistical_inference library against its specification.

The development shallowly embeds the Rust sources:
  - `src/distributions/t.rs`   (Student-t critical-value table and p-values)
  - `src/distributions/f.rs`   (F distribution via the incomplete beta function)
  - `src/categorical.rs`       (proportion tests, chi-square tests, sample sizing)
  - `src/numerical.rs`         (mean tests, sample sizing)

Machine floats (`f64`) are modelled as rationals `ℚ` where the code only
compares and combines decimal constants, and as reals `ℝ` where square roots
or integrals occur.  Rust panics (`assert!`, `unwrap`) are modelled by
`Option`-valued functions returning `none`.  The repository files
`distributions/normal.rs` and `distributions/chi_square.rs` are not part of
the sources given under src/; functions from them (`Z_SCORE_TABLE`,
`CHI_SQUARE_TABLE`) enter as parameters of the embedded definitions, and any
property of them that a claim needs is taken from the specification and
marked `Modelled from the spec`.
-/

namespace StatInf

/-! ## Student-t table, from src/distributions/t.rs -/

/-- Mirrors `TAIL_AREA_SEQUENCE` from t.rs: the ten tail-area column levels,
in the order the columns are stored (descending tail area). -/
def tailAreaSequence : List ℚ :=
  [0.25, 0.20, 0.15, 0.10, 0.05, 0.025, 0.01, 0.005, 0.001, 0.0005]

/-- Mirrors `t_scores_30` from `TScoreTable::new`: one row of critical values
per degrees-of-freedom 1..30, columns aligned with `tailAreaSequence`. -/
def tScores30 : List (List ℚ) := [
  [1.000, 1.376, 1.963, 3.078, 6.314, 12.71, 31.82, 63.66, 318.31, 636.62],
  [0.816, 1.061, 1.386, 1.886, 2.920, 4.303, 6.965, 9.925, 22.327, 31.599],
  [0.765, 0.978, 1.250, 1.638, 2.353, 3.182, 4.541, 5.841, 10.215, 12.924],
  [0.741, 0.941, 1.190, 1.533, 2.132, 2.776, 3.747, 4.604, 7.173, 8.610],
  [0.727, 0.920, 1.156, 1.476, 2.015, 2.571, 3.365, 4.032, 5.893, 6.869],
  [0.718, 0.906, 1.134, 1.440, 1.943, 2.447, 3.143, 3.707, 5.208, 5.959],
  [0.711, 0.896, 1.119, 1.415, 1.895, 2.365, 2.998, 3.499, 4.785, 5.408],
  [0.706, 0.889, 1.108, 1.397, 1.860, 2.306, 2.896, 3.355, 4.501, 5.041],
  [0.703, 0.883, 1.100, 1.383, 1.833, 2.262, 2.821, 3.250, 4.297, 4.781],
  [0.700, 0.879, 1.093, 1.372, 1.812, 2.228, 2.764, 3.169, 4.144, 4.587],
  [0.697, 0.876, 1.088, 1.363, 1.796, 2.201, 2.718, 3.106, 4.025, 4.437],
  [0.695, 0.873, 1.083, 1.356, 1.782, 2.179, 2.681, 3.055, 3.930, 4.318],
  [0.694, 0.870, 1.079, 1.350, 1.771, 2.160, 2.650, 3.012, 3.852, 4.221],
  [0.692, 0.868, 1.076, 1.345, 1.761, 2.145, 2.624, 2.977, 3.787, 4.140],
  [0.691, 0.866, 1.074, 1.341, 1.753, 2.131, 2.602, 2.947, 3.733, 4.073],
  [0.690, 0.865, 1.071, 1.337, 1.746, 2.120, 2.583, 2.921, 3.686, 4.015],
  [0.689, 0.863, 1.069, 1.333, 1.740, 2.110, 2.567, 2.898, 3.646, 3.965],
  [0.688, 0.862, 1.067, 1.330, 1.734, 2.101, 2.552, 2.878, 3.610, 3.922],
  [0.688, 0.861, 1.066, 1.328, 1.729, 2.093, 2.539, 2.861, 3.579, 3.883],
  [0.687, 0.860, 1.064, 1.325, 1.725, 2.086, 2.528, 2.845, 3.552, 3.850],
  [0.686, 0.859, 1.063, 1.323, 1.721, 2.080, 2.518, 2.831, 3.527, 3.819],
  [0.686, 0.858, 1.061, 1.321, 1.717, 2.074, 2.508, 2.819, 3.505, 3.792],
  [0.685, 0.858, 1.060, 1.319, 1.714, 2.069, 2.500, 2.807, 3.485, 3.768],
  [0.685, 0.857, 1.059, 1.318, 1.711, 2.064, 2.492, 2.797, 3.467, 3.745],
  [0.684, 0.856, 1.058, 1.316, 1.708, 2.060, 2.485, 2.787, 3.450, 3.725],
  [0.684, 0.856, 1.058, 1.315, 1.706, 2.056, 2.479, 2.779, 3.435, 3.707],
  [0.684, 0.855, 1.057, 1.314, 1.703, 2.052, 2.473, 2.771, 3.421, 3.690],
  [0.683, 0.855, 1.056, 1.313, 1.701, 2.048, 2.467, 2.763, 3.408, 3.674],
  [0.683, 0.854, 1.055, 1.311, 1.699, 2.045, 2.462, 2.756, 3.396, 3.659],
  [0.683, 0.854, 1.055, 1.310, 1.697, 2.042, 2.457, 2.750, 3.385, 3.646]]

/-- Mirrors `t_scores_40` (bucket for df in (30, 40]). -/
def tScores40 : List ℚ :=
  [0.681, 0.851, 1.050, 1.303, 1.684, 2.021, 2.423, 2.704, 3.307, 3.551]

/-- Mirrors `t_scores_60` (bucket for df in (40, 60]). -/
def tScores60 : List ℚ :=
  [0.679, 0.848, 1.045, 1.296, 1.671, 2.000, 2.390, 2.660, 3.232, 3.460]

/-- Mirrors `t_scores_80` (bucket for df in (60, 80]). -/
def tScores80 : List ℚ :=
  [0.678, 0.846, 1.043, 1.292, 1.664, 1.990, 2.374, 2.639, 3.195, 3.416]

/-- Mirrors `t_scores_100` (bucket for df in (80, 100]). -/
def tScores100 : List ℚ :=
  [0.677, 0.845, 1.042, 1.290, 1.660, 1.984, 2.364, 2.626, 3.174, 3.390]

/-- Mirrors `t_scores_1000` (bucket for df in (100, 1000]). -/
def tScores1000 : List ℚ :=
  [0.675, 0.842, 1.037, 1.282, 1.646, 1.962, 2.330, 2.581, 3.098, 3.300]

/-- Mirrors `TScoreTable::row`: the cascade of `df.get() <= n` bounds checks.
The Rust `df` is a `NonZeroUsize`; callers of the theorems below supply
`1 ≤ df`. -/
def tRow (df : ℕ) : Option (List ℚ) :=
  if df ≤ 30 then some (tScores30.getD (df - 1) [])
  else if df ≤ 40 then some tScores40
  else if df ≤ 60 then some tScores60
  else if df ≤ 80 then some tScores80
  else if df ≤ 100 then some tScores100
  else if df ≤ 1000 then some tScores1000
  else none

/-- Mirrors the scan loop of `TScoreTable::p_value_one_sided`: the counter `i`
is incremented while `col > t` fails, so the result is the index of the first
entry strictly exceeding `t` (the length of the list when no entry does). -/
def scanIdx : List ℚ → ℚ → ℕ
  | [], _ => 0
  | c :: rest, t => if t < c then 0 else scanIdx rest t + 1

/-- List indexing with default `0`, used for `TAIL_AREA_SEQUENCE[i]` (the code
guards the access with `i == row.len()`, which this default makes total). -/
def nthOr : List ℚ → ℕ → ℚ
  | [], _ => 0
  | c :: _, 0 => c
  | _ :: rest, i + 1 => nthOr rest i

/-- Mirrors `TScoreTable::p_value_one_sided`.  `zOneSided` stands for
`Z_SCORE_TABLE.p_value_one_sided` from distributions/normal.rs, a file that is
not among the given sources; every theorem quantifies over it or constrains
it only by properties the specification states. -/
def tPValueOneSided (zOneSided : ℚ → ℚ) (df : ℕ) (t : ℚ) : ℚ :=
  match tRow df with
  | none => zOneSided t
  | some row =>
    let i := scanIdx row |t|
    if i = row.length then 0 else nthOr tailAreaSequence i

/-- Mirrors `TScoreTable::p_value_two_sided`: the one-sided value times two.
The `NormalizedF64::new(..).unwrap()` re-wrap asserts the product is in
[0, 1]; the bound is proved in the claim-C6 theorem rather than modelled as a
panic, since the one-sided value never exceeds 1/2. -/
def tPValueTwoSided (zOneSided : ℚ → ℚ) (df : ℕ) (t : ℚ) : ℚ :=
  tPValueOneSided zOneSided df t * 2

/-- Modelled from the spec: distributions/normal.rs is not among the given
sources; spec 4.2 states the normal two-sided p-value is `2·Φ(−|z|)`, i.e.
twice the one-sided value, which this expresses in terms of the one-sided
function. -/
def zTwoSidedFromOneSided (zOneSided : ℚ → ℚ) (z : ℚ) : ℚ :=
  2 * zOneSided z

/-! ### Formalisations of the claimed and amended scan descriptions (C1) -/

/-- Critical values of a row paired with their tail areas, column by column. -/
def tailAreaPairs (row : List ℚ) : List (ℚ × ℚ) :=
  row.zip tailAreaSequence

/-- Tail area of the first pair (in the order given) whose critical value
strictly exceeds `tAbs`; `0` when no critical value exceeds it. -/
def firstExceedingTailArea (pairs : List (ℚ × ℚ)) (tAbs : ℚ) : ℚ :=
  match pairs.find? (fun p => decide (tAbs < p.1)) with
  | some p => p.2
  | none => 0

/-- The scan exactly as claim C1 words it: the row is scanned in ascending
tail-probability order, i.e. descending critical-value order (the reverse of
storage order), and the tail area of the first column whose critical value
strictly exceeds `|t|` is returned, `0` if none exceeds it. -/
def claimedDescendingScan (df : ℕ) (t : ℚ) : ℚ :=
  match tRow df with
  | none => 0
  | some row => firstExceedingTailArea (tailAreaPairs row).reverse |t|

/-- Row selection as the claim words it: individual rows for df 1..30, then
the bucket rows for df in (30,40], (40,60], (60,80], (80,100], (100,1000]. -/
def amendedRowSpec (df : ℕ) : Option (List ℚ) :=
  if 1 ≤ df ∧ df ≤ 30 then some (tScores30.getD (df - 1) [])
  else if 30 < df ∧ df ≤ 40 then some tScores40
  else if 40 < df ∧ df ≤ 60 then some tScores60
  else if 60 < df ∧ df ≤ 80 then some tScores80
  else if 80 < df ∧ df ≤ 100 then some tScores100
  else if 100 < df ∧ df ≤ 1000 then some tScores1000
  else none

/-- The amended description of the table lookup: select the bucket row, scan
it in descending tail-probability order (ascending critical-value order, the
storage order) and return the tail area of the first column whose critical
value strictly exceeds `|t|`; a `|t|` equal to an entry falls through to the
next, smaller tail area, and if no critical value exceeds `|t|` the result
is `0`. -/
def amendedOneSided (df : ℕ) (t : ℚ) : ℚ :=
  match amendedRowSpec df with
  | none => 0
  | some row => firstExceedingTailArea (tailAreaPairs row) |t|

/-! ## Categorical tests, from src/categorical.rs

Panicking Rust functions (`assert!`, `unwrap`) are modelled as `Option`
values, `none` meaning the computation aborts.  `zTwoSided` stands for
`Z_SCORE_TABLE.p_value_two_sided` and `chiP` for `CHI_SQUARE_TABLE.p_value`
(normal.rs and chi_square.rs are not among the given sources); the claims
about precondition failures hold for every choice of these functions. -/

/-- Mirrors `CountAndProportion` (count is `usize`, proportion a `UnitR<f64>`;
the [0,1] invariant of `UnitR` enters theorems as a hypothesis where needed). -/
structure CountAndProportion where
  count : ℕ
  proportion : ℚ

/-- Mirrors `CountAndProportion::is_normally_distributed_enough`:
`10 <= count·p` and `10 <= count·(1 − p)`. -/
def CountAndProportion.isNormallyDistributedEnough (s : CountAndProportion) : Prop :=
  10 ≤ (s.count : ℚ) * s.proportion ∧ 10 ≤ (s.count : ℚ) * (1 - s.proportion)

instance (s : CountAndProportion) : Decidable s.isNormallyDistributedEnough :=
  inferInstanceAs (Decidable (_ ∧ _))

/-- Mirrors `CountAndProportion::standard_error_squared`: `p(1−p)/count`. -/
def CountAndProportion.standardErrorSquared (s : CountAndProportion) : ℚ :=
  s.proportion * (1 - s.proportion) / (s.count : ℚ)

/-- Mirrors the free function `standard_error`: square root of the summed
squared standard errors (the square root forces the real-valued model). -/
noncomputable def proportionStandardError (samples : List CountAndProportion) : ℝ :=
  Real.sqrt (((samples.map CountAndProportion.standardErrorSquared).sum : ℚ) : ℝ)

/-- Mirrors `one_proportion`.  The leading `assert!` of the normality check is
the `none` of the outer branch.  The inner `p0·(1−p0) = 0` branch models the
`R::new(z).unwrap()` panic: with the check passed the count is positive, so
the standard error is zero — making `z` non-finite — exactly when
`p0 ∈ {0, 1}` (`UnitR` confines `p0` to [0,1]). -/
noncomputable def oneProportion (zTwoSided : ℝ → ℝ) (sample : CountAndProportion)
    (p0 : ℚ) : Option ℝ :=
  if sample.isNormallyDistributedEnough then
    if p0 * (1 - p0) = 0 then none
    else
      some (zTwoSided (((sample.proportion - p0 : ℚ) : ℝ) /
        proportionStandardError [⟨sample.count, p0⟩]))
  else none

/-- Mirrors `difference_of_two_proportions`: two normality asserts, then the
two-sided normal p-value of `(p̂₁ − p̂₂ − p₀)/SE`.  With both checks passed
each proportion is strictly between 0 and 1, so `SE > 0` and the
`R::new(z).unwrap()` never fires. -/
noncomputable def differenceOfTwoProportions (zTwoSided : ℝ → ℝ)
    (s1 s2 : CountAndProportion) (p0 : ℚ) : Option ℝ :=
  if s1.isNormallyDistributedEnough then
    if s2.isNormallyDistributedEnough then
      some (zTwoSided (((s1.proportion - s2.proportion - p0 : ℚ) : ℝ) /
        proportionStandardError [s1, s2]))
    else none
  else none

/-- Mirrors `CountAndExpect` (an observed count and an expected count). -/
structure CountAndExpect where
  count : ℕ
  expect : ℚ

/-- Mirrors `CountAndExpect::z_squared`: `(count − expect)² / expect`. -/
def CountAndExpect.zSquared (b : CountAndExpect) : ℚ :=
  ((b.count : ℚ) - b.expect) ^ 2 / b.expect

/-- Mirrors `fitness`.  The first statement of the Rust function is
`NonZeroUsize::new(catagories.len() - 1).unwrap()`: on an empty slice the
`usize` subtraction underflows (a panic under Rust overflow checking), and on
a one-element slice `NonZeroUsize::new(0)` is `None` and the `unwrap` panics —
both before the per-bin `expect >= 5` asserts run.  Then every bin must have
expected count at least 5, and the chi-square statistic is handed to the
chi-square table with df = bins − 1. -/
def fitness (chiP : ℕ → ℚ → ℚ) (catagories : List CountAndExpect) : Option ℚ :=
  match catagories.length with
  | 0 => none
  | 1 => none
  | n + 2 =>
    if ∀ b ∈ catagories, (5 : ℚ) ≤ b.expect then
      some (chiP (n + 1) (catagories.map CountAndExpect.zSquared).sum)
    else none

/-- Row totals of the R×C table of `two_way_table_independence`. -/
def rowTotal {Rn Cn : ℕ} (m : Fin Rn → Fin Cn → ℕ) (r : Fin Rn) : ℕ :=
  ∑ c, m r c

/-- Column totals of the R×C table. -/
def colTotal {Rn Cn : ℕ} (m : Fin Rn → Fin Cn → ℕ) (c : Fin Cn) : ℕ :=
  ∑ r, m r c

/-- Grand total of the R×C table. -/
def tableTotal {Rn Cn : ℕ} (m : Fin Rn → Fin Cn → ℕ) : ℕ :=
  ∑ r, ∑ c, m r c

/-- Expected cell count `row_total[r] * col_total[c] / table_total`. -/
def cellExpect {Rn Cn : ℕ} (m : Fin Rn → Fin Cn → ℕ) (r : Fin Rn) (c : Fin Cn) : ℚ :=
  ((rowTotal m r * colTotal m c : ℕ) : ℚ) / (tableTotal m : ℚ)

/-- Mirrors `two_way_table_independence`: `assert!(R >= 2)`, `assert!(C >= 2)`,
then every cell's expected count must be at least 5, then the chi-square
statistic over all cells is handed to the chi-square table with
df = (R−1)(C−1).  The const-generic dimensions become the parameters
`Rn`, `Cn`. -/
def twoWayTableIndependence (chiP : ℕ → ℚ → ℚ) {Rn Cn : ℕ}
    (m : Fin Rn → Fin Cn → ℕ) : Option ℚ :=
  if 2 ≤ Rn then
    if 2 ≤ Cn then
      if ∀ r c, (5 : ℚ) ≤ cellExpect m r c then
        some (chiP ((Rn - 1) * (Cn - 1))
          (∑ r, ∑ c, ((m r c : ℚ) - cellExpect m r c) ^ 2 / cellExpect m r c))
      else none
    else none
  else none

/-! ## Minimum sample sizes, from src/categorical.rs and src/numerical.rs

Both functions call `Z_SCORE_TABLE.z`, the normal upper-tail quantile from
distributions/normal.rs, which is not among the given sources; it enters as
the parameter `z`. -/

/-- Mirrors `min_count_of_each_of_two_samples` from categorical.rs:
`region = z(max_p_value/2) − z(power)`,
`error = p₁(1−p₁) + p₂(1−p₂)`, `diff = p₁ − p₂ − p₀`,
result `⌈error / (diff/region)²⌉` (the `as usize` cast of a non-negative
float is `Int.toNat` here). -/
def categoricalMinCount (z : ℚ → ℚ) (proportion1 proportion2 p0 power
    maxPValue : ℚ) : ℕ :=
  let oneSidedPValue := maxPValue / 2
  let powerRegionExtension := z power
  let rejectRegionExtension := z oneSidedPValue
  let region := rejectRegionExtension - powerRegionExtension
  let error := proportion1 * (1 - proportion1) + proportion2 * (1 - proportion2)
  let diff := proportion1 - proportion2 - p0
  (⌈error / (diff / region) ^ 2⌉).toNat

/-- Mirrors `min_count_of_each_of_two_samples` from numerical.rs: the same
region, `error = deviation₁ + deviation₂`, `diff = mean_a`. -/
def numericalMinCount (z : ℚ → ℚ) (meanA power maxPValue deviation1
    deviation2 : ℚ) : ℕ :=
  let oneSidedPValue := maxPValue / 2
  let powerRegionExtension := z power
  let rejectRegionExtension := z oneSidedPValue
  let region := rejectRegionExtension - powerRegionExtension
  (⌈(deviation1 + deviation2) / (meanA / region) ^ 2⌉).toNat

/-- The sample-size formula exactly as claim C4 words it:
`n = ⌈error/((Δ)/region)²⌉` with `region = z(1−power) − z(p/2)`. -/
def claimedMinCount (z : ℚ → ℚ) (error diff power maxPValue : ℚ) : ℕ :=
  let region := z (1 - power) - z (maxPValue / 2)
  (⌈error / (diff / region) ^ 2⌉).toNat

/-- Modelled from the spec: a stand-in for the missing `Z_SCORE_TABLE.z`
(distributions/normal.rs is not among the given sources).  Spec 4.2 describes
`z` as the normal upper-tail quantile; this affine stand-in keeps the
quantile laws the claims rely on — strictly decreasing, `z(1/2) = 0` and the
reflection `z(1−q) = −z(q)` — while staying computable over ℚ. -/
def zQuantileModel : ℚ → ℚ := fun q => 1 - 2 * q

/-! ## F distribution, from src/distributions/f.rs -/

/-- Integrand `t^(a−1)·(1−t)^(b−1)` of `incomplete_beta_function` (real
powers, as `f64::powf`). -/
noncomputable def betaIntegrand (a b : ℝ) : ℝ → ℝ :=
  fun t => t ^ (a - 1) * (1 - t) ^ (b - 1)

/-- Idealisation of `reikna::integral::integrate_wp` (an external crate, not
repository code): the definite integral which the adaptive quadrature
approximates, per spec 4.5 where any quadrature of adequate accuracy is
admissible. -/
noncomputable def integrate_wp (f : ℝ → ℝ) (lo hi : ℝ) : ℝ :=
  ∫ t in lo..hi, f t

/-- Mirrors `incomplete_beta_function`: the ratio of the integral of the beta
integrand over [0, x] to its integral over [0, 1]. -/
noncomputable def incomplete_beta_function (x a b : ℝ) : ℝ :=
  integrate_wp (betaIntegrand a b) 0 x / integrate_wp (betaIntegrand a b) 0 1

/-- Mirrors `FParams` (`x` is the F ratio, a `PositiveF64`; `df_1`, `df_2`
are `NonZeroUsize` — the invariants enter the theorems as hypotheses). -/
structure FParams where
  x : ℝ
  df1 : ℕ
  df2 : ℕ

/-- Mirrors `FCdf::p_value`: transform `x = df1·f/(df1·f + df2)` and return
`1 − I_x(df1/2, df2/2)`. -/
noncomputable def fPValue (p : FParams) : ℝ :=
  let df1 : ℝ := p.df1
  let df2 : ℝ := p.df2
  let x := df1 * p.x / (df1 * p.x + df2)
  1 - incomplete_beta_function x (df1 / 2) (df2 / 2)

/-! ## List lemmas for the table scan -/

theorem scanIdx_le_length (l : List ℚ) (t : ℚ) : scanIdx l t ≤ l.length := by
  induction l with
  | nil => exact Nat.le_refl 0
  | cons c rest ih =>
    simp only [scanIdx, List.length_cons]
    by_cases h : t < c
    · rw [if_pos h]; exact Nat.zero_le _
    · rw [if_neg h]; exact Nat.succ_le_succ ih

theorem scanIdx_mono (l : List ℚ) {a b : ℚ} (h : a ≤ b) : scanIdx l a ≤ scanIdx l b := by
  induction l with
  | nil => exact Nat.le_refl 0
  | cons c rest ih =>
    simp only [scanIdx]
    by_cases hb : b < c
    · rw [if_pos (lt_of_le_of_lt h hb), if_pos hb]
    · by_cases ha : a < c
      · rw [if_pos ha, if_neg hb]; exact Nat.zero_le _
      · rw [if_neg ha, if_neg hb]; exact Nat.succ_le_succ ih

theorem nthOr_of_length_le : ∀ (l : List ℚ) (i : ℕ), l.length ≤ i → nthOr l i = 0
  | [], _, _ => rfl
  | _ :: _, 0, h => absurd h (by simp)
  | _ :: rest, i + 1, h => nthOr_of_length_le rest i (by simpa using h)

theorem nthOr_mem : ∀ (l : List ℚ) (i : ℕ), i < l.length → nthOr l i ∈ l
  | [], _, h => absurd h (by simp)
  | c :: _, 0, _ => List.mem_cons_self c _
  | _ :: rest, i + 1, h =>
    List.mem_cons_of_mem _ (nthOr_mem rest i (by simpa using h))

theorem nthOr_nonneg : ∀ (l : List ℚ), (∀ x ∈ l, 0 ≤ x) → ∀ i, 0 ≤ nthOr l i
  | [], _, _ => le_refl 0
  | c :: _, h, 0 => h c (List.mem_cons_self c _)
  | _ :: rest, h, i + 1 =>
    nthOr_nonneg rest (fun x hx => h x (List.mem_cons_of_mem _ hx)) i

theorem nthOr_le_of_bound : ∀ (l : List ℚ) (c : ℚ), 0 ≤ c → (∀ x ∈ l, x ≤ c) →
    ∀ i, nthOr l i ≤ c
  | [], _, hc, _, _ => hc
  | a :: _, _, _, h, 0 => h a (List.mem_cons_self a _)
  | _ :: rest, c, hc, h, i + 1 =>
    nthOr_le_of_bound rest c hc (fun x hx => h x (List.mem_cons_of_mem _ hx)) i

theorem nthOr_anti : ∀ (l : List ℚ), l.Sorted (fun x y => y ≤ x) → (∀ x ∈ l, 0 ≤ x) →
    ∀ i j, i ≤ j → nthOr l j ≤ nthOr l i := by
  intro l
  induction l with
  | nil => intro _ _ i j _; exact le_refl 0
  | cons c rest ih =>
    intro hs hn i j hij
    rcases List.sorted_cons.mp hs with ⟨hhead, htail⟩
    match i, j with
    | 0, 0 => exact le_refl _
    | 0, j + 1 =>
      exact nthOr_le_of_bound rest c (hn c (List.mem_cons_self c _))
        (fun x hx => hhead x hx) j
    | i + 1, j + 1 =>
      exact ih htail (fun x hx => hn x (List.mem_cons_of_mem _ hx)) i j
        (Nat.le_of_succ_le_succ hij)

theorem find_zip_eq_nthOr : ∀ (row seq : List ℚ) (t : ℚ), row.length = seq.length →
    firstExceedingTailArea (row.zip seq) t = nthOr seq (scanIdx row t) := by
  intro row
  induction row with
  | nil =>
    intro seq t h
    cases seq with
    | nil => rfl
    | cons a s => simp at h
  | cons c rest ih =>
    intro seq t h
    cases seq with
    | nil => simp at h
    | cons a s =>
      have hlen : rest.length = s.length := by simpa using h
      simp only [List.zip_cons_cons, firstExceedingTailArea, scanIdx]
      by_cases hc : t < c
      · rw [List.find?_cons_of_pos _ (by simpa using hc), if_pos hc]
        rfl
      · rw [List.find?_cons_of_neg _ (by simpa using hc), if_neg hc]
        have := ih s t hlen
        simp only [firstExceedingTailArea] at this
        rw [this]
        rfl

/-! ## Facts about the tail-area sequence and the row table -/

theorem tailAreaSequence_sorted : tailAreaSequence.Sorted (fun x y => y ≤ x) := by
  norm_num [tailAreaSequence, List.sorted_cons]

theorem tailAreaSequence_nonneg : ∀ x ∈ tailAreaSequence, 0 ≤ x := by
  norm_num [tailAreaSequence]

theorem tailAreaSequence_le_quarter : ∀ x ∈ tailAreaSequence, x ≤ 1 / 4 := by
  norm_num [tailAreaSequence]

theorem tScores30_row_length : ∀ k, k < 30 → (tScores30.getD k []).length = 10 := by
  decide

theorem tRow_eq_none_of_gt (df : ℕ) (h : 1000 < df) : tRow df = none := by
  unfold tRow
  rw [if_neg (by omega), if_neg (by omega), if_neg (by omega), if_neg (by omega),
    if_neg (by omega), if_neg (by omega)]

theorem tRow_some_of_le (df : ℕ) (h1 : 1 ≤ df) (h2 : df ≤ 1000) :
    ∃ row, tRow df = some row ∧ row.length = 10 := by
  unfold tRow
  by_cases c30 : df ≤ 30
  · rw [if_pos c30]; exact ⟨_, rfl, tScores30_row_length (df - 1) (by omega)⟩
  · rw [if_neg c30]
    by_cases c40 : df ≤ 40
    · rw [if_pos c40]; exact ⟨_, rfl, rfl⟩
    · rw [if_neg c40]
      by_cases c60 : df ≤ 60
      · rw [if_pos c60]; exact ⟨_, rfl, rfl⟩
      · rw [if_neg c60]
        by_cases c80 : df ≤ 80
        · rw [if_pos c80]; exact ⟨_, rfl, rfl⟩
        · rw [if_neg c80]
          by_cases c100 : df ≤ 100
          · rw [if_pos c100]; exact ⟨_, rfl, rfl⟩
          · rw [if_neg c100, if_pos (by omega)]; exact ⟨_, rfl, rfl⟩

theorem tRow_length (df : ℕ) (h1 : 1 ≤ df) (row : List ℚ) (h : tRow df = some row) :
    row.length = 10 := by
  by_cases h2 : df ≤ 1000
  · obtain ⟨r, hr, hlen⟩ := tRow_some_of_le df h1 h2
    rw [hr] at h
    injection h with h
    rw [← h]; exact hlen
  · rw [tRow_eq_none_of_gt df (by omega)] at h
    cases h

theorem tPValueOneSided_eq_nthOr (zP : ℚ → ℚ) (df : ℕ) (row : List ℚ)
    (hrow : tRow df = some row) (hlen : row.length = 10) (t : ℚ) :
    tPValueOneSided zP df t = nthOr tailAreaSequence (scanIdx row |t|) := by
  simp only [tPValueOneSided, hrow]
  by_cases h : scanIdx row |t| = row.length
  · rw [if_pos h, h, hlen]; rfl
  · rw [if_neg h]

theorem amendedRowSpec_eq_tRow (df : ℕ) (h1 : 1 ≤ df) : amendedRowSpec df = tRow df := by
  unfold amendedRowSpec tRow
  split_ifs <;> first | rfl | omega

/-- Shared bound: for every df ≥ 1 and every t, the one-sided t p-value lies
in [0, 1/2], provided the normal fallback (spec 4.2: `Φ(−|z|)`) does. -/
theorem tPValueOneSided_bounds (zOneSided : ℚ → ℚ)
    (hz : ∀ z, 0 ≤ zOneSided z ∧ zOneSided z ≤ 1 / 2) (df : ℕ) (h1 : 1 ≤ df) (t : ℚ) :
    0 ≤ tPValueOneSided zOneSided df t ∧ tPValueOneSided zOneSided df t ≤ 1 / 2 := by
  cases hrow : tRow df with
  | none =>
    simp only [tPValueOneSided, hrow]
    exact hz t
  | some row =>
    have hlen := tRow_length df h1 row hrow
    rw [tPValueOneSided_eq_nthOr zOneSided df row hrow hlen t]
    constructor
    · exact nthOr_nonneg _ tailAreaSequence_nonneg _
    · exact le_trans
        (nthOr_le_of_bound _ (1 / 4) (by norm_num) tailAreaSequence_le_quarter _)
        (by norm_num)

/-- Claim C1 counterexample: at df = 1, t = 2 the code scans the stored row in
ascending critical-value order and returns tail area 0.10 (the first critical
value exceeding 2 is 3.078, column 4), while the scan order the claim words —
ascending tail-probability order, i.e. descending critical-value order — would
stop at 636.62 and return 0.0005.  The claimed description therefore does not
match `p_value_one_sided`. -/
theorem t_scan_order_counterexample :
    tPValueOneSided (fun _ => 0) 1 2 = 0.10 ∧ claimedDescendingScan 1 2 = 0.0005 ∧
      tPValueOneSided (fun _ => 0) 1 2 ≠ claimedDescendingScan 1 2 := by
  refine ⟨?_, ?_, ?_⟩
  · norm_num [tPValueOneSided, tRow, tScores30, scanIdx, nthOr, tailAreaSequence]
  · norm_num [claimedDescendingScan, tRow, tScores30, tailAreaPairs, tailAreaSequence,
      firstExceedingTailArea, List.find?]
  · norm_num [tPValueOneSided, claimedDescendingScan, tRow, tScores30, scanIdx, nthOr,
      tailAreaSequence, tailAreaPairs, firstExceedingTailArea, List.find?]

/-- Claim C1 (amended): for every df with 1 ≤ df ≤ 1000 and every t,
`p_value_one_sided` takes `|t|`, selects the table row for df (rows for df
1..30 individually, then the bucket rows for (30,40], (40,60], (60,80],
(80,100], (100,1000]), scans that row in descending tail-probability order —
that is, ascending critical-value order, the order the row is stored in — and
returns the tail area of the first column whose critical value strictly
exceeds `|t|`; a `|t|` exactly equal to a table entry is treated as not
exceeding it and falls through to the next, smaller tail area; if no critical
value in the row exceeds `|t|` the result is 0. -/
theorem t_one_sided_table_scan (zOneSided : ℚ → ℚ) (df : ℕ) (t : ℚ)
    (h1 : 1 ≤ df) (h2 : df ≤ 1000) :
    tPValueOneSided zOneSided df t = amendedOneSided df t := by
  obtain ⟨row, hrow, hlen⟩ := tRow_some_of_le df h1 h2
  rw [tPValueOneSided_eq_nthOr zOneSided df row hrow hlen t]
  simp only [amendedOneSided, amendedRowSpec_eq_tRow df h1, hrow, tailAreaPairs]
  rw [find_zip_eq_nthOr row tailAreaSequence |t| (by rw [hlen]; rfl)]

/-- Witness for the amended claim C1 at df = 35, t = 2 (bucket row (30,40]). -/
theorem t_one_sided_table_scan_witness :
    (1 ≤ 35 ∧ 35 ≤ 1000) ∧
      tPValueOneSided (fun _ => 0) 35 2 = amendedOneSided 35 2 :=
  ⟨by omega, t_one_sided_table_scan (fun _ => 0) 35 2 (by omega) (by omega)⟩

/-- Claim C2: for df > 1000 the t distribution delegates entirely to the
normal distribution: the one-sided p-value is exactly the normal one-sided
p-value at t, and the two-sided p-value is exactly the normal two-sided
p-value (twice the one-sided one, per spec 4.2).  `zOneSided` stands for
`Z_SCORE_TABLE.p_value_one_sided` and is arbitrary here. -/
theorem t_large_df_delegates_to_normal (zOneSided : ℚ → ℚ) (df : ℕ) (t : ℚ)
    (h : 1000 < df) :
    tPValueOneSided zOneSided df t = zOneSided t ∧
      tPValueTwoSided zOneSided df t = zTwoSidedFromOneSided zOneSided t := by
  have hn := tRow_eq_none_of_gt df h
  refine ⟨?_, ?_⟩
  · simp [tPValueOneSided, hn]
  · simp only [tPValueTwoSided, tPValueOneSided, hn, zTwoSidedFromOneSided]
    ring

/-- Witness for claim C2 at df = 1001, t = 3. -/
theorem t_large_df_delegates_to_normal_witness :
    1000 < 1001 ∧
      (tPValueOneSided (fun q => q + 1) 1001 3 = (fun q : ℚ => q + 1) 3 ∧
        tPValueTwoSided (fun q => q + 1) 1001 3 =
          zTwoSidedFromOneSided (fun q => q + 1) 3) :=
  ⟨by omega, t_large_df_delegates_to_normal (fun q => q + 1) 1001 3 (by omega)⟩

/-- Claim C6: for every df ≥ 1 and every t, the two-sided t p-value is twice
the one-sided one, and both lie in [0, 1].  The normal fallback used beyond
the table satisfies `Φ(−|z|) ∈ [0, 1/2]` per spec 4.2, taken as the
hypothesis `hz`. -/
theorem t_two_sided_is_double (zOneSided : ℚ → ℚ)
    (hz : ∀ z, 0 ≤ zOneSided z ∧ zOneSided z ≤ 1 / 2) (df : ℕ) (h1 : 1 ≤ df) (t : ℚ) :
    tPValueTwoSided zOneSided df t = 2 * tPValueOneSided zOneSided df t ∧
      0 ≤ tPValueOneSided zOneSided df t ∧ tPValueOneSided zOneSided df t ≤ 1 ∧
      0 ≤ tPValueTwoSided zOneSided df t ∧ tPValueTwoSided zOneSided df t ≤ 1 := by
  obtain ⟨hlo, hhi⟩ := tPValueOneSided_bounds zOneSided hz df h1 t
  refine ⟨by unfold tPValueTwoSided; ring, hlo, by linarith, ?_, ?_⟩
  · unfold tPValueTwoSided; linarith
  · unfold tPValueTwoSided; linarith

/-- Witness for claim C6 at df = 2, t = 1 with the constant normal model 1/4. -/
theorem t_two_sided_is_double_witness :
    tPValueTwoSided (fun _ => 1 / 4) 2 1 = 2 * tPValueOneSided (fun _ => 1 / 4) 2 1 ∧
      0 ≤ tPValueOneSided (fun _ => 1 / 4) 2 1 ∧
      tPValueOneSided (fun _ => 1 / 4) 2 1 ≤ 1 ∧
      0 ≤ tPValueTwoSided (fun _ => 1 / 4) 2 1 ∧
      tPValueTwoSided (fun _ => 1 / 4) 2 1 ≤ 1 :=
  t_two_sided_is_double (fun _ => 1 / 4) (fun _ => by norm_num) 2 (by omega) 1

/-- Claim C7: for fixed df ≥ 1 the one-sided t p-value is monotonically
non-increasing in `|t|`.  Beyond the table the normal fallback is used; spec
4.2 gives it as `Φ(−|z|)`, non-increasing in `|z|`, taken as hypothesis. -/
theorem t_one_sided_antitone_in_abs (zOneSided : ℚ → ℚ)
    (hz : ∀ a b : ℚ, |a| ≤ |b| → zOneSided b ≤ zOneSided a) (df : ℕ) (h1 : 1 ≤ df)
    (t1 t2 : ℚ) (h : |t1| ≤ |t2|) :
    tPValueOneSided zOneSided df t2 ≤ tPValueOneSided zOneSided df t1 := by
  cases hrow : tRow df with
  | none =>
    simp only [tPValueOneSided, hrow]
    exact hz t1 t2 h
  | some row =>
    have hlen := tRow_length df h1 row hrow
    rw [tPValueOneSided_eq_nthOr zOneSided df row hrow hlen t1,
      tPValueOneSided_eq_nthOr zOneSided df row hrow hlen t2]
    exact nthOr_anti _ tailAreaSequence_sorted tailAreaSequence_nonneg _ _
      (scanIdx_mono row h)

/-- Witness for claim C7 at df = 1, t1 = 0, t2 = 7. -/
theorem t_one_sided_antitone_in_abs_witness :
    |(0 : ℚ)| ≤ |(7 : ℚ)| ∧
      tPValueOneSided (fun _ => 0) 1 7 ≤ tPValueOneSided (fun _ => 0) 1 0 :=
  ⟨by norm_num,
    t_one_sided_antitone_in_abs (fun _ => 0) (fun _ _ _ => le_refl 0) 1 (by omega)
      0 7 (by norm_num)⟩

/-- Claim C8: for 1 ≤ df ≤ 1000 the one-sided t p-value is either one of the
ten tabulated tail areas or 0 (eleven possible values), hence never exceeds
0.25, and the two-sided value never exceeds 0.5. -/
theorem t_one_sided_value_range (zOneSided : ℚ → ℚ) (df : ℕ) (h1 : 1 ≤ df)
    (h2 : df ≤ 1000) (t : ℚ) :
    (tPValueOneSided zOneSided df t ∈ tailAreaSequence ∨
        tPValueOneSided zOneSided df t = 0) ∧
      tPValueOneSided zOneSided df t ≤ 0.25 ∧
      tPValueTwoSided zOneSided df t ≤ 0.5 := by
  obtain ⟨row, hrow, hlen⟩ := tRow_some_of_le df h1 h2
  have hone := tPValueOneSided_eq_nthOr zOneSided df row hrow hlen t
  have hbound : tPValueOneSided zOneSided df t ≤ 1 / 4 := by
    rw [hone]
    exact nthOr_le_of_bound _ (1 / 4) (by norm_num) tailAreaSequence_le_quarter _
  refine ⟨?_, by linarith, ?_⟩
  · by_cases hi : scanIdx row |t| < tailAreaSequence.length
    · left; rw [hone]; exact nthOr_mem _ _ hi
    · right; rw [hone]; exact nthOr_of_length_le _ _ (by omega)
  · show tPValueOneSided zOneSided df t * 2 ≤ 0.5
    linarith

/-- Witness for claim C8 at df = 3, t = 5. -/
theorem t_one_sided_value_range_witness :
    (1 ≤ 3 ∧ 3 ≤ 1000) ∧
      ((tPValueOneSided (fun _ => 0) 3 5 ∈ tailAreaSequence ∨
          tPValueOneSided (fun _ => 0) 3 5 = 0) ∧
        tPValueOneSided (fun _ => 0) 3 5 ≤ 0.25 ∧
        tPValueTwoSided (fun _ => 0) 3 5 ≤ 0.5) :=
  ⟨by omega, t_one_sided_value_range (fun _ => 0) 3 (by omega) (by omega) 5⟩

/-- Claim C9: for 1 ≤ df ≤ 1000 the table-driven p-values depend only on
`|t|`: both the one-sided and the two-sided t p-value are unchanged when t is
negated. -/
theorem t_p_value_symmetric (zOneSided : ℚ → ℚ) (df : ℕ) (h1 : 1 ≤ df)
    (h2 : df ≤ 1000) (t : ℚ) :
    tPValueOneSided zOneSided df t = tPValueOneSided zOneSided df (-t) ∧
      tPValueTwoSided zOneSided df t = tPValueTwoSided zOneSided df (-t) := by
  obtain ⟨row, hrow, hlen⟩ := tRow_some_of_le df h1 h2
  have habs : |(-t)| = |t| := abs_neg t
  have hone : tPValueOneSided zOneSided df t = tPValueOneSided zOneSided df (-t) := by
    rw [tPValueOneSided_eq_nthOr zOneSided df row hrow hlen t,
      tPValueOneSided_eq_nthOr zOneSided df row hrow hlen (-t), habs]
  exact ⟨hone, by unfold tPValueTwoSided; rw [hone]⟩

/-- Witness for claim C9 at df = 2, t = 7. -/
theorem t_p_value_symmetric_witness :
    (1 ≤ 2 ∧ 2 ≤ 1000) ∧
      (tPValueOneSided (fun _ => 0) 2 7 = tPValueOneSided (fun _ => 0) 2 (-7) ∧
        tPValueTwoSided (fun _ => 0) 2 7 = tPValueTwoSided (fun _ => 0) 2 (-7)) :=
  ⟨by omega, t_p_value_symmetric (fun _ => 0) 2 (by omega) (by omega) 7⟩

/-! ## Precondition failures (claims C5 and C10) -/

/-- Claim C5: every hypothesis-test function aborts (returns no p-value)
whenever its stated precondition is violated — `one_proportion` and
`difference_of_two_proportions` when a sample fails `count·p̂ ≥ 10` or
`count·(1−p̂) ≥ 10`, `fitness` when some bin's expected count is below 5, and
`two_way_table_independence` when R < 2, C < 2 or some cell's expected count
is below 5 — for every choice of the normal and chi-square p-value
functions, so no violation can silently produce a p-value. -/
theorem precondition_violations_abort :
    (∀ (zTwoSided : ℝ → ℝ) (sample : CountAndProportion) (p0 : ℚ),
      ¬sample.isNormallyDistributedEnough →
        oneProportion zTwoSided sample p0 = none) ∧
    (∀ (zTwoSided : ℝ → ℝ) (s1 s2 : CountAndProportion) (p0 : ℚ),
      ¬s1.isNormallyDistributedEnough ∨ ¬s2.isNormallyDistributedEnough →
        differenceOfTwoProportions zTwoSided s1 s2 p0 = none) ∧
    (∀ (chiP : ℕ → ℚ → ℚ) (catagories : List CountAndExpect),
      (∃ b ∈ catagories, b.expect < 5) → fitness chiP catagories = none) ∧
    (∀ (chiP : ℕ → ℚ → ℚ) (Rn Cn : ℕ) (m : Fin Rn → Fin Cn → ℕ),
      (Rn < 2 ∨ Cn < 2 ∨ ∃ r c, cellExpect m r c < 5) →
        twoWayTableIndependence chiP m = none) := by
  refine ⟨?_, ?_, ?_, ?_⟩
  · intro zT s p0 h
    unfold oneProportion
    rw [if_neg h]
  · intro zT s1 s2 p0 h
    unfold differenceOfTwoProportions
    rcases h with h | h
    · rw [if_neg h]
    · by_cases h1 : s1.isNormallyDistributedEnough
      · rw [if_pos h1, if_neg h]
      · rw [if_neg h1]
  · rintro chiP catagories ⟨b, hb, hlt⟩
    unfold fitness
    split
    · rfl
    · rfl
    · rw [if_neg]
      intro hall
      exact absurd (hall b hb) (by linarith)
  · intro chiP Rn Cn m h
    unfold twoWayTableIndependence
    rcases h with h | h | ⟨r, c, hrc⟩
    · rw [if_neg (by omega)]
    · by_cases hR : 2 ≤ Rn
      · rw [if_pos hR, if_neg (by omega)]
      · rw [if_neg hR]
    · by_cases hR : 2 ≤ Rn
      · by_cases hC : 2 ≤ Cn
        · rw [if_pos hR, if_pos hC, if_neg]
          intro hall
          exact absurd (hall r c) (by linarith)
        · rw [if_pos hR, if_neg hC]
      · rw [if_neg hR]

/-- Witness for claim C5: each of the four tests, at a concrete violating
input, yields no p-value — a 5-element sample with proportion 1/2 (so
count·p̂ = 5/2 < 10), a bin with expected count 2 < 5, and a 1×2 table. -/
theorem precondition_violations_abort_witness :
    oneProportion (fun _ => 0) ⟨5, 1 / 2⟩ (1 / 4) = none ∧
    differenceOfTwoProportions (fun _ => 0) ⟨5, 1 / 2⟩ ⟨100, 1 / 2⟩ 0 = none ∧
    fitness (fun _ _ => 0) [⟨3, 2⟩, ⟨10, 7⟩] = none ∧
    twoWayTableIndependence (fun _ _ => 0) (fun (_ : Fin 1) (_ : Fin 2) => 100) = none := by
  have h1 : ¬(⟨5, 1 / 2⟩ : CountAndProportion).isNormallyDistributedEnough := by
    norm_num [CountAndProportion.isNormallyDistributedEnough]
  exact ⟨precondition_violations_abort.1 _ _ _ h1,
    precondition_violations_abort.2.1 _ _ _ _ (Or.inl h1),
    precondition_violations_abort.2.2.1 _ _ ⟨⟨3, 2⟩, by simp, by norm_num⟩,
    precondition_violations_abort.2.2.2 _ _ _ _ (Or.inl (by omega))⟩

/-- Claim C10: with fewer than two categories `fitness` aborts before any
expected-count check: the empty slice fails at the `len - 1` subtraction and
the one-element slice at `NonZeroUsize::new(0).unwrap()`, so a one-bin
goodness-of-fit test never produces a p-value, whatever the expected counts
and whatever the chi-square table computes. -/
theorem fitness_fails_below_two_bins (chiP : ℕ → ℚ → ℚ)
    (catagories : List CountAndExpect) (h : catagories.length < 2) :
    fitness chiP catagories = none := by
  match catagories with
  | [] => rfl
  | [b] => rfl
  | a :: b :: rest =>
    simp only [List.length_cons] at h
    omega

/-- Witness for claim C10: a single bin whose expected count 100 satisfies
the expected-count precondition still yields no p-value. -/
theorem fitness_fails_below_two_bins_witness :
    ([⟨10, 100⟩] : List CountAndExpect).length < 2 ∧
      fitness (fun _ _ => 0) [⟨10, 100⟩] = none :=
  ⟨by decide, fitness_fails_below_two_bins (fun _ _ => 0) [⟨10, 100⟩] (by decide)⟩

/-! ## Minimum sample size (claim C4) -/

/-- Rounding up: for a non-negative rational, `⌈raw⌉.toNat` is the least
integer at least `raw`. -/
theorem ceil_toNat_bounds (raw : ℚ) (h : 0 ≤ raw) :
    raw ≤ ((⌈raw⌉.toNat : ℕ) : ℚ) ∧ ((⌈raw⌉.toNat : ℕ) : ℚ) < raw + 1 := by
  have hc : (0 : ℤ) ≤ ⌈raw⌉ := Int.ceil_nonneg h
  have h3 : ((⌈raw⌉.toNat : ℕ) : ℚ) = (⌈raw⌉ : ℚ) := by
    exact_mod_cast congrArg (fun k : ℤ => (k : ℚ)) (Int.toNat_of_nonneg hc)
  exact ⟨by rw [h3]; exact Int.le_ceil raw, by rw [h3]; exact Int.ceil_lt_add_one raw⟩

/-- Claim C4 counterexample: with a quantile model satisfying the spec's
reflection law `z(1−q) = −z(q)`, at proportions 1/2 and 1/4, null 0,
power 4/5 and target p-value 1/20 the code returns 17 while the formula the
claim words — `region = z(1−power) − z(p/2)` — yields 1 (the code's region is
`z(p/2) − z(power)`, which is the sum of the two magnitudes, not their
difference). -/
theorem min_count_region_counterexample :
    categoricalMinCount zQuantileModel (1 / 2) (1 / 4) 0 (4 / 5) (1 / 20) = 17 ∧
    claimedMinCount zQuantileModel
      (1 / 2 * (1 - 1 / 2) + 1 / 4 * (1 - 1 / 4)) (1 / 2 - 1 / 4 - 0) (4 / 5) (1 / 20) = 1 ∧
    categoricalMinCount zQuantileModel (1 / 2) (1 / 4) 0 (4 / 5) (1 / 20) ≠
      claimedMinCount zQuantileModel
        (1 / 2 * (1 - 1 / 2) + 1 / 4 * (1 - 1 / 4)) (1 / 2 - 1 / 4 - 0) (4 / 5) (1 / 20) := by
  have h17 : categoricalMinCount zQuantileModel (1 / 2) (1 / 4) 0 (4 / 5) (1 / 20) = 17 := by
    have hceil : ⌈(6727 : ℚ) / 400⌉ = 17 := by norm_num [Int.ceil_eq_iff]
    unfold categoricalMinCount zQuantileModel
    norm_num
    rw [hceil]
    rfl
  have h1 : claimedMinCount zQuantileModel
      (1 / 2 * (1 - 1 / 2) + 1 / 4 * (1 - 1 / 4)) (1 / 2 - 1 / 4 - 0) (4 / 5) (1 / 20) = 1 := by
    have hceil : ⌈(343 : ℚ) / 400⌉ = 1 := by norm_num [Int.ceil_eq_iff]
    unfold claimedMinCount zQuantileModel
    norm_num
    rw [hceil]
    rfl
  refine ⟨h17, h1, ?_⟩
  rw [h17, h1]
  omega

/-- Claim C4 (amended): both minimum-sample-size functions return
`n = ⌈error/((Δ)/region)²⌉`, i.e. `error/((Δ)/region)²` rounded up to the
next integer, where the region the code uses is `z(p/2) − z(power)` — for an
upper-tail quantile with the reflection law this equals `z(p/2) + z(1−power)`,
the sum of the two offsets, not the difference `z(1−power) − z(p/2)` the
claim stated — with `Δ` the observed difference minus the null value and
`error = Σ pᵢ(1−pᵢ)` for proportions or the sum of the two variance
parameters for means. -/
theorem min_count_formula (z : ℚ → ℚ)
    (p1 p2 p0 power maxPValue meanA dev1 dev2 : ℚ)
    (hp1 : 0 ≤ p1) (hp1' : p1 ≤ 1) (hp2 : 0 ≤ p2) (hp2' : p2 ≤ 1)
    (hpow : 0 < power) (hpow' : power < 1) (hmax : 0 < maxPValue)
    (hmax' : maxPValue < 1) (hΔp : p1 - p2 - p0 ≠ 0) (hΔm : meanA ≠ 0)
    (hd1 : 0 ≤ dev1) (hd2 : 0 ≤ dev2) :
    (categoricalMinCount z p1 p2 p0 power maxPValue =
      (⌈(p1 * (1 - p1) + p2 * (1 - p2)) /
          ((p1 - p2 - p0) / (z (maxPValue / 2) - z power)) ^ 2⌉).toNat) ∧
    (numericalMinCount z meanA power maxPValue dev1 dev2 =
      (⌈(dev1 + dev2) / (meanA / (z (maxPValue / 2) - z power)) ^ 2⌉).toNat) ∧
    ((p1 * (1 - p1) + p2 * (1 - p2)) /
        ((p1 - p2 - p0) / (z (maxPValue / 2) - z power)) ^ 2 ≤
      (categoricalMinCount z p1 p2 p0 power maxPValue : ℚ)) ∧
    ((categoricalMinCount z p1 p2 p0 power maxPValue : ℚ) <
      (p1 * (1 - p1) + p2 * (1 - p2)) /
        ((p1 - p2 - p0) / (z (maxPValue / 2) - z power)) ^ 2 + 1) ∧
    ((dev1 + dev2) / (meanA / (z (maxPValue / 2) - z power)) ^ 2 ≤
      (numericalMinCount z meanA power maxPValue dev1 dev2 : ℚ)) ∧
    ((numericalMinCount z meanA power maxPValue dev1 dev2 : ℚ) <
      (dev1 + dev2) / (meanA / (z (maxPValue / 2) - z power)) ^ 2 + 1) := by
  have herr : 0 ≤ p1 * (1 - p1) + p2 * (1 - p2) :=
    add_nonneg (mul_nonneg hp1 (by linarith)) (mul_nonneg hp2 (by linarith))
  have hrawp : 0 ≤ (p1 * (1 - p1) + p2 * (1 - p2)) /
      ((p1 - p2 - p0) / (z (maxPValue / 2) - z power)) ^ 2 :=
    div_nonneg herr (sq_nonneg _)
  have hrawm : 0 ≤ (dev1 + dev2) /
      (meanA / (z (maxPValue / 2) - z power)) ^ 2 :=
    div_nonneg (add_nonneg hd1 hd2) (sq_nonneg _)
  obtain ⟨hpl, hpu⟩ := ceil_toNat_bounds _ hrawp
  obtain ⟨hml, hmu⟩ := ceil_toNat_bounds _ hrawm
  exact ⟨rfl, rfl, hpl, hpu, hml, hmu⟩

/-- Witness for the amended claim C4 with the quantile stand-in, proportions
1/2 and 1/4, means difference −3, variances 1, power 4/5, target p-value
1/20. -/
theorem min_count_formula_witness :
    (categoricalMinCount zQuantileModel (1 / 2) (1 / 4) 0 (4 / 5) (1 / 20) =
      (⌈(1 / 2 * (1 - 1 / 2) + 1 / 4 * (1 - 1 / 4)) /
          ((1 / 2 - 1 / 4 - 0) /
            (zQuantileModel (1 / 20 / 2) - zQuantileModel (4 / 5))) ^ 2⌉).toNat) ∧
    (numericalMinCount zQuantileModel (-3) (4 / 5) (1 / 20) 1 1 =
      (⌈((1 : ℚ) + 1) /
          ((-3) / (zQuantileModel (1 / 20 / 2) - zQuantileModel (4 / 5))) ^ 2⌉).toNat) ∧
    ((1 / 2 * (1 - 1 / 2) + 1 / 4 * (1 - 1 / 4)) /
        ((1 / 2 - 1 / 4 - 0) /
          (zQuantileModel (1 / 20 / 2) - zQuantileModel (4 / 5))) ^ 2 ≤
      (categoricalMinCount zQuantileModel (1 / 2) (1 / 4) 0 (4 / 5) (1 / 20) : ℚ)) ∧
    ((categoricalMinCount zQuantileModel (1 / 2) (1 / 4) 0 (4 / 5) (1 / 20) : ℚ) <
      (1 / 2 * (1 - 1 / 2) + 1 / 4 * (1 - 1 / 4)) /
        ((1 / 2 - 1 / 4 - 0) /
          (zQuantileModel (1 / 20 / 2) - zQuantileModel (4 / 5))) ^ 2 + 1) ∧
    (((1 : ℚ) + 1) /
        ((-3) / (zQuantileModel (1 / 20 / 2) - zQuantileModel (4 / 5))) ^ 2 ≤
      (numericalMinCount zQuantileModel (-3) (4 / 5) (1 / 20) 1 1 : ℚ)) ∧
    ((numericalMinCount zQuantileModel (-3) (4 / 5) (1 / 20) 1 1 : ℚ) <
      ((1 : ℚ) + 1) /
        ((-3) / (zQuantileModel (1 / 20 / 2) - zQuantileModel (4 / 5))) ^ 2 + 1) :=
  min_count_formula zQuantileModel (1 / 2) (1 / 4) 0 (4 / 5) (1 / 20) (-3) 1 1
    (by norm_num) (by norm_num) (by norm_num) (by norm_num) (by norm_num)
    (by norm_num) (by norm_num) (by norm_num) (by norm_num) (by norm_num)
    (by norm_num) (by norm_num)

/-! ## F distribution (claim C3) -/

/-- The beta integrand is interval integrable on [0, 1] for positive `a`,
`b`: integrable near 0 because the exponent `a − 1` exceeds −1, near 1
symmetrically, with the respectively bounded continuous factor. -/
theorem betaIntegrand_intervalIntegrable (a b : ℝ) (ha : 0 < a) (hb : 0 < b) :
    IntervalIntegrable (betaIntegrand a b) MeasureTheory.volume 0 1 := by
  have hleft : IntervalIntegrable (betaIntegrand a b) MeasureTheory.volume 0 (1 / 2) := by
    have h1 : IntervalIntegrable (fun t : ℝ => t ^ (a - 1)) MeasureTheory.volume 0 (1 / 2) :=
      intervalIntegral.intervalIntegrable_rpow' (by linarith)
    have hc : ContinuousOn (fun t : ℝ => (1 - t) ^ (b - 1)) (Set.uIcc (0 : ℝ) (1 / 2)) := by
      apply ContinuousOn.rpow_const (continuousOn_const.sub continuousOn_id)
      intro x hx
      left
      rw [Set.uIcc_of_le (by norm_num : (0 : ℝ) ≤ 1 / 2)] at hx
      have hx2 : x ≤ 1 / 2 := hx.2
      simp only [id_eq]
      exact ne_of_gt (by linarith)
    simpa [betaIntegrand] using h1.mul_continuousOn hc
  have hright : IntervalIntegrable (betaIntegrand a b) MeasureTheory.volume (1 / 2) 1 := by
    have h2 : IntervalIntegrable (fun s : ℝ => s ^ (b - 1)) MeasureTheory.volume 0 (1 / 2) :=
      intervalIntegral.intervalIntegrable_rpow' (by linarith)
    have h3 : IntervalIntegrable (fun t : ℝ => (1 - t) ^ (b - 1)) MeasureTheory.volume
        (1 - 0) (1 - 1 / 2) := h2.comp_sub_left 1
    have h4 : IntervalIntegrable (fun t : ℝ => (1 - t) ^ (b - 1)) MeasureTheory.volume
        (1 / 2) 1 := by
      have h5 := h3.symm
      norm_num at h5
      exact h5
    have hc : ContinuousOn (fun t : ℝ => t ^ (a - 1)) (Set.uIcc (1 / 2 : ℝ) 1) := by
      apply ContinuousOn.rpow_const continuousOn_id
      intro x hx
      left
      rw [Set.uIcc_of_le (by norm_num : (1 / 2 : ℝ) ≤ 1)] at hx
      have hx1 : 1 / 2 ≤ x := hx.1
      simp only [id_eq]
      exact ne_of_gt (by linarith)
    simpa [betaIntegrand] using h4.continuousOn_mul hc
  exact hleft.trans hright

/-- The denominator integral of `incomplete_beta_function` over [0, 1] is
strictly positive for positive `a`, `b` — so the beta ratio never divides by
zero. -/
theorem betaDenominator_pos (a b : ℝ) (ha : 0 < a) (hb : 0 < b) :
    0 < integrate_wp (betaIntegrand a b) 0 1 := by
  unfold integrate_wp
  apply intervalIntegral.intervalIntegral_pos_of_pos_on
    (betaIntegrand_intervalIntegrable a b ha hb)
  · intro x hx
    exact mul_pos (Real.rpow_pos_of_pos hx.1 _)
      (Real.rpow_pos_of_pos (by linarith [hx.2]) _)
  · norm_num

/-- Claim C3: for F ratio `x ≥ 0` and df₁, df₂ ≥ 1, `FCdf::p_value` returns
`1 − I_x(df1/2, df2/2)` at `x = df1·f/(df1·f + df2)`, where `I` is the ratio
of the integral of `t^(a−1)(1−t)^(b−1)` over [0, x] to the one over [0, 1];
the denominator integral is strictly positive (no division by zero), and
`f = 0` gives `x = 0`, beta ratio 0 and p-value exactly 1. -/
theorem f_p_value_formula (p : FParams) (hx : 0 ≤ p.x) (h1 : 1 ≤ p.df1)
    (h2 : 1 ≤ p.df2) :
    fPValue p = 1 - incomplete_beta_function
        ((p.df1 : ℝ) * p.x / ((p.df1 : ℝ) * p.x + (p.df2 : ℝ)))
        ((p.df1 : ℝ) / 2) ((p.df2 : ℝ) / 2) ∧
      0 < integrate_wp (betaIntegrand ((p.df1 : ℝ) / 2) ((p.df2 : ℝ) / 2)) 0 1 ∧
      (p.x = 0 → fPValue p = 1) := by
  have ha : (0 : ℝ) < (p.df1 : ℝ) / 2 := by
    have : (1 : ℝ) ≤ (p.df1 : ℝ) := by exact_mod_cast h1
    linarith
  have hb : (0 : ℝ) < (p.df2 : ℝ) / 2 := by
    have : (1 : ℝ) ≤ (p.df2 : ℝ) := by exact_mod_cast h2
    linarith
  refine ⟨rfl, betaDenominator_pos _ _ ha hb, ?_⟩
  intro hx0
  have hrfl : fPValue p = 1 - incomplete_beta_function
      ((p.df1 : ℝ) * p.x / ((p.df1 : ℝ) * p.x + (p.df2 : ℝ)))
      ((p.df1 : ℝ) / 2) ((p.df2 : ℝ) / 2) := rfl
  rw [hrfl, hx0, mul_zero, zero_add, zero_div]
  have hnum : incomplete_beta_function 0 ((p.df1 : ℝ) / 2) ((p.df2 : ℝ) / 2) = 0 := by
    unfold incomplete_beta_function integrate_wp
    rw [intervalIntegral.integral_same, zero_div]
  rw [hnum, sub_zero]

/-- Witness for claim C3 at `x = 0`, df₁ = df₂ = 1: the denominator integral
is positive and the p-value is exactly 1. -/
theorem f_p_value_formula_witness :
    0 < integrate_wp (betaIntegrand (((1 : ℕ) : ℝ) / 2) (((1 : ℕ) : ℝ) / 2)) 0 1 ∧
      fPValue ⟨0, 1, 1⟩ = 1 :=
  ⟨(f_p_value_formula ⟨0, 1, 1⟩ le_rfl le_rfl le_rfl).2.1,
    (f_p_value_formula ⟨0, 1, 1⟩ le_rfl le_rfl le_rfl).2.2 rfl⟩

end StatInf
